import Mathlib

/-!
Verification of the node-based causal simulation kernel contract and of the
host program `src/main.cpp` of gradys-sim-nextgen.

The repository supplies only the host glue (`src/main.cpp`), which embeds an
interpreter, imports a `simulation` module, creates one node, sets its
timestamp to 0, calls `initialize 1`, and prints the count of returned
consequences followed by each consequence in order.  The kernel itself (the
`simulation` module: Node Store and Cascade Engine) is not part of the
supplied sources, so it is modelled here from the specification; the host's
control flow is embedded from `src/main.cpp` directly, parameterised over an
opaque kernel since the host treats the kernel's objects opaquely.
-/

namespace GradysSim

/-- Node state: a mapping from attribute names to integer values, modelled as
an association list with update-in-place semantics. -/
def State := List (String × Int)
deriving DecidableEq

instance : Inhabited State := ⟨([] : List (String × Int))⟩

/-- Look up the value of an attribute in a state. -/
def lookupAttr : State → String → Option Int
  | [], _ => none
  | (k, v) :: rest, a => if k = a then some v else lookupAttr rest a

/-- Set an attribute to a value: overwrite the existing binding if present,
otherwise append a new binding. -/
def setAttr : State → String → Int → State
  | [], a, v => [(a, v)]
  | (k, w) :: rest, a, v =>
    if k = a then (k, v) :: rest else (k, w) :: setAttr rest a v

/-- Apply a list of attribute patches to a state, left to right. -/
def applyPatch (s : State) : List (String × Int) → State
  | [] => s
  | (a, v) :: rest => applyPatch (setAttr s a v) rest

/-- Modelled from the spec: error taxonomy of the kernel (§7), the
`simulation` module being absent from the supplied sources. -/
inductive KernelError
  | UninitializedTimestamp
  | CascadeDepthExceeded
  | InvalidSeed
  | InvalidTimestamp
  | ResourceExhausted
deriving DecidableEq, Repr

/-- Modelled from the spec: a Node (§3) — opaque identity, optional logical
timestamp (unset at creation), and mutable attribute state.  The `simulation`
module that owns nodes is absent from the supplied sources. -/
structure Node where
  id : Nat
  timestamp : Option Int
  state : State
deriving DecidableEq

/-- A record of one effect produced during a cascade, before order indices
are assigned: originating rule identifier, affected attribute, resulting
value. -/
structure Effect where
  rule : Nat
  attr : String
  value : Int
deriving DecidableEq, Repr

/-- Modelled from the spec: a Consequence (§3) — originating rule identifier,
affected attribute reference, resulting value, and order-of-occurrence index
(monotonic within one `initialize` call). -/
structure Consequence where
  rule : Nat
  attr : String
  value : Int
  order : Nat
deriving DecidableEq, Repr

/-- Modelled from the spec: a pluggable rule (§9) — an identifier together
with a capability `evaluate(state) -> effects`, each effect being an
attribute/value pair the rule wants to establish. -/
structure Rule where
  id : Nat
  eval : State → List (String × Int)

/-- Modelled from the spec: a rule set (§9) — the pluggable rules, the seed
domain the rule set recognizes, and the deterministic initial state patch
derived from seed and timestamp (§4.2 step 1). -/
structure RuleSet where
  rules : List Rule
  seedOk : Int → Bool
  seedInit : Int → Int → List (String × Int)

/-- Modelled from the spec: apply the effects demanded by one rule (§4.2
step 2).  An effect is a discrete application only if it changes state
(setting an attribute to its current value produces no Consequence); each
applied effect both mutates state and emits an effect record. -/
def applyEffects (rid : Nat) : List (String × Int) → State → State × List Effect
  | [], s => (s, [])
  | (a, v) :: rest, s =>
    if lookupAttr s a = some v then applyEffects rid rest s
    else ((applyEffects rid rest (setAttr s a v)).1,
          ⟨rid, a, v⟩ :: (applyEffects rid rest (setAttr s a v)).2)

/-- Evaluate one rule against a state and apply its effects. -/
def applyRule (r : Rule) (s : State) : State × List Effect :=
  applyEffects r.id (r.eval s) s

/-- Modelled from the spec: one evaluation pass — evaluate every rule, in
rule-set order, against the evolving state (§4.2 step 2), collecting the
effects in the exact order they are produced. -/
def stepOnce : List Rule → State → State × List Effect
  | [], s => (s, [])
  | r :: rs, s =>
    ((stepOnce rs (applyRule r s).1).1,
     (applyRule r s).2 ++ (stepOnce rs (applyRule r s).1).2)

/-- Modelled from the spec: the cascade loop (§4.2 steps 3–4) — re-evaluate
the rules against the mutated state until a pass produces no new effects
(fixed point), with a hard step bound that surfaces as
`CascadeDepthExceeded` instead of hanging. -/
def cascade (rules : List Rule) : Nat → State → Except KernelError (State × List Effect)
  | 0, _ => .error .CascadeDepthExceeded
  | fuel + 1, s =>
    if (stepOnce rules s).2 = [] then .ok (s, [])
    else
      match cascade rules fuel (stepOnce rules s).1 with
      | .ok q => .ok (q.1, (stepOnce rules s).2 ++ q.2)
      | .error e => .error e

/-- Modelled from the spec: the implementation-defined cascade-depth limit
(§4.2 step 3). -/
def cascadeDepthLimit : Nat := 64

/-- Assign order-of-occurrence indices to the produced effects, starting
from a given index. -/
def withIndicesFrom : Nat → List Effect → List Consequence
  | _, [] => []
  | i, e :: rest => ⟨e.rule, e.attr, e.value, i⟩ :: withIndicesFrom (i + 1) rest

/-- Assign order-of-occurrence indices 0, 1, 2, … to the produced effects. -/
def withIndices (es : List Effect) : List Consequence :=
  withIndicesFrom 0 es

/-- Modelled from the spec: the core of `initialize` (§4.2) as a function of
the node's timestamp, its state and the seed — gate on the timestamp being
set and the seed being in the recognized domain, establish the initial state
from seed and timestamp, then run the cascade to a fixed point. -/
def initCore (R : RuleSet) (ts : Option Int) (st : State) (seed : Int) :
    Except KernelError (State × List Consequence) :=
  match ts with
  | none => .error .UninitializedTimestamp
  | some t =>
    if R.seedOk seed then
      match cascade R.rules cascadeDepthLimit (applyPatch st (R.seedInit seed t)) with
      | .ok q => .ok (q.1, withIndices q.2)
      | .error e => .error e
    else .error .InvalidSeed

/-- Modelled from the spec: `initialize(node, seed)` (§4.2) — returns the
node after the call together with either the ordered consequence sequence or
a kernel error.  On failure the original node is returned untouched
(all-or-nothing, §7); on success the node's state reflects the cumulative
result of all applied consequences. -/
def initializeNode (R : RuleSet) (n : Node) (seed : Int) :
    Node × Except KernelError (List Consequence) :=
  match initCore R n.timestamp n.state seed with
  | .ok q => ({ n with state := q.1 }, .ok q.2)
  | .error e => (n, .error e)

/-- Modelled from the spec: `create_node()` (§4.1) — allocates a new node
with empty state and unset timestamp. -/
def create_node (nid : Nat) : Node :=
  { id := nid, timestamp := none, state := ([] : List (String × Int)) }

/-- Modelled from the spec: `set_timestamp(node, value)` (§4.1) — assigns a
non-negative logical tick, overwriting any previous timestamp; out-of-range
values fail with `InvalidTimestamp`. -/
def set_timestamp (n : Node) (v : Int) : Except KernelError Node :=
  if 0 ≤ v then .ok { n with timestamp := some v } else .error .InvalidTimestamp

/-- Counting variant of `applyEffects`: number of discrete effect
applications (state mutations) performed while applying one rule's demanded
effects. -/
def applyEffectsN (rid : Nat) : List (String × Int) → State → State × Nat
  | [], s => (s, 0)
  | (a, v) :: rest, s =>
    if lookupAttr s a = some v then applyEffectsN rid rest s
    else ((applyEffectsN rid rest (setAttr s a v)).1,
          (applyEffectsN rid rest (setAttr s a v)).2 + 1)

/-- Counting variant of `stepOnce`. -/
def stepOnceN : List Rule → State → State × Nat
  | [], s => (s, 0)
  | r :: rs, s =>
    ((stepOnceN rs (applyEffectsN r.id (r.eval s) s).1).1,
     (applyEffectsN r.id (r.eval s) s).2 +
       (stepOnceN rs (applyEffectsN r.id (r.eval s) s).1).2)

/-- Counting variant of `cascade`: total number of discrete effects applied
to state during the whole cascade. -/
def cascadeN (rules : List Rule) : Nat → State → Except KernelError (State × Nat)
  | 0, _ => .error .CascadeDepthExceeded
  | fuel + 1, s =>
    if (stepOnceN rules s).2 = 0 then .ok (s, 0)
    else
      match cascadeN rules fuel (stepOnceN rules s).1 with
      | .ok q => .ok (q.1, (stepOnceN rules s).2 + q.2)
      | .error e => .error e

/-- The number of discrete effects actually applied to node state during an
`initialize` call (0 when the call fails before or during the cascade). -/
def appliedEffectCount (R : RuleSet) (n : Node) (seed : Int) : Nat :=
  match n.timestamp with
  | none => 0
  | some t =>
    if R.seedOk seed then
      match cascadeN R.rules cascadeDepthLimit (applyPatch n.state (R.seedInit seed t)) with
      | .ok q => q.2
      | .error _ => 0
    else 0

/-! ## The host program, embedded from `src/main.cpp`

The host treats the kernel's node and consequence objects opaquely: it only
forwards them to the three attribute invocations and to printing.  It is
therefore embedded parameterised over the kernel, each kernel call returning
either a value or a raised kernel error. -/

/-- A kernel as seen from the host boundary (§6): `create_node`,
`set_timestamp` and `initialize`, each able to raise a kernel error, over
opaque node and consequence types. -/
structure Kernel (Nd : Type) (α : Type) where
  createNode : Except KernelError Nd
  setTimestamp : Nd → Int → Except KernelError Nd
  initializeCall : Nd → Int → Except KernelError (Nd × List α)

/-- One kernel operation observable at the host boundary, including the two
Node Store accessors (`get_state` / `mutate_state`, §4.1) that the host
never invokes. -/
inductive KernelOp
  | createNodeOp
  | setTimestampOp (t : Int)
  | initializeOp (seed : Int)
  | getStateOp
  | mutateStateOp
deriving DecidableEq, Repr

/-- One line of the host's standard output: either the count of consequences
(`std::cout << consequences.size()`) or one printed consequence
(`py::print(consequence)`), from `src/main.cpp` lines 16–19. -/
inductive OutputLine (α : Type)
  | count : Nat → OutputLine α
  | consequence : α → OutputLine α
deriving DecidableEq

/-- The host's standard output for a returned consequence list: the list's
element count on one line, then each consequence in list order, one per
line (`src/main.cpp` lines 16–19). -/
def outputLines {α : Type} (cs : List α) : List (OutputLine α) :=
  .count cs.length :: cs.map .consequence

/-- `main` from `src/main.cpp`, embedded with its kernel-call trace: create
one node, set its timestamp to 0, call `initialize(1)`, print the count and
then every consequence.  Each kernel call is a C++ exception point: a raised
error stops the run there (no handler exists in `main`), so the trace ends
at the failing call and the error propagates as the run's outcome. -/
def hostMainT {Nd α : Type} (K : Kernel Nd α) :
    List KernelOp × Except KernelError (List (OutputLine α)) :=
  match K.createNode with
  | .error e => ([.createNodeOp], .error e)
  | .ok n =>
    match K.setTimestamp n 0 with
    | .error e => ([.createNodeOp, .setTimestampOp 0], .error e)
    | .ok n1 =>
      match K.initializeCall n1 1 with
      | .error e => ([.createNodeOp, .setTimestampOp 0, .initializeOp 1], .error e)
      | .ok q =>
        ([.createNodeOp, .setTimestampOp 0, .initializeOp 1], .ok (outputLines q.2))

/-- The kernel-call trace of one host run. -/
def hostTrace {Nd α : Type} (K : Kernel Nd α) : List KernelOp :=
  (hostMainT K).1

/-- The outcome of one host run: the printed output on success, the
unhandled kernel error otherwise. -/
def hostMain {Nd α : Type} (K : Kernel Nd α) :
    Except KernelError (List (OutputLine α)) :=
  (hostMainT K).2

/-- The host process exit status: 0 on a normal run, nonzero when an
unhandled error terminates the process. -/
def hostExitCode {Nd α : Type} (K : Kernel Nd α) : Nat :=
  match hostMain K with
  | .ok _ => 0
  | .error _ => 1

/-- The spec-modelled kernel packaged behind the host boundary, for a given
rule set and node identifier. -/
def specKernel (R : RuleSet) (nid : Nat) : Kernel Node Consequence :=
  { createNode := .ok (create_node nid)
  , setTimestamp := fun n v => set_timestamp n v
  , initializeCall := fun n seed =>
      match initializeNode R n seed with
      | (n1, .ok cs) => .ok (n1, cs)
      | (_, .error e) => .error e }

/-! ## Concrete rule sets used as test vectors -/

/-- Example rule R1: once the seed condition is established, set attribute
`a` to 1. -/
def ruleR1 : Rule :=
  { id := 1
  , eval := fun s => if lookupAttr s "seeded" = some 1 then [("a", 1)] else [] }

/-- Example rule R2: triggered by R1's effect (`a` set), set `b` to 1. -/
def ruleR2 : Rule :=
  { id := 2
  , eval := fun s => if lookupAttr s "a" = some 1 then [("b", 1)] else [] }

/-- Example rule R3: triggered by R1's effect (`a` set), set `c` to 1. -/
def ruleR3 : Rule :=
  { id := 3
  , eval := fun s => if lookupAttr s "a" = some 1 then [("c", 1)] else [] }

/-- The example rule set of the spec's ordering-stability property: R1
directly triggers R2 and R3; seed 1 is the only recognized seed and
establishes the `seeded` attribute. -/
def exampleRuleSet : RuleSet :=
  { rules := [ruleR1, ruleR2, ruleR3]
  , seedOk := fun seed => seed = 1
  , seedInit := fun seed _ => [("seeded", seed)] }

/-- A cyclic rule: it flips attribute `x` between 0 and 1 forever, so its
rule graph has a cyclic dependency and the cascade never reaches a fixed
point. -/
def ruleFlip : Rule :=
  { id := 9
  , eval := fun s => if lookupAttr s "x" = some 1 then [("x", 0)] else [("x", 1)] }

/-- A rule set whose rule graph is cyclic (`ruleFlip`), accepting every
seed. -/
def cyclicRuleSet : RuleSet :=
  { rules := [ruleFlip]
  , seedOk := fun _ => true
  , seedInit := fun _ _ => [] }

/-- A kernel whose node allocation fails, exercising the host's behavior on
a raised error. -/
def failingKernel : Kernel Node Consequence :=
  { createNode := .error .ResourceExhausted
  , setTimestamp := fun n v => set_timestamp n v
  , initializeCall := fun n seed =>
      match initializeNode exampleRuleSet n seed with
      | (n1, .ok cs) => .ok (n1, cs)
      | (_, .error e) => .error e }

/-- A fresh node with identifier `nid` whose timestamp has been set to 0. -/
def nodeTs0 (nid : Nat) : Node :=
  { id := nid, timestamp := some 0, state := ([] : List (String × Int)) }

/-- The node state reached by `initialize 1` on a fresh node under
`exampleRuleSet`. -/
def exampleFinalState : State :=
  [("seeded", 1), ("a", 1), ("b", 1), ("c", 1)]

/-- The consequence sequence returned by `initialize 1` on a fresh node with
timestamp 0 under `exampleRuleSet`: the R1 effect, then the R2 effect, then
the R3 effect. -/
def exampleConsequences : List Consequence :=
  [ { rule := 1, attr := "a", value := 1, order := 0 }
  , { rule := 2, attr := "b", value := 1, order := 1 }
  , { rule := 3, attr := "c", value := 1, order := 2 } ]

/-- Whether a kernel operation is an `initialize` invocation (with any
seed). -/
def isInitOp : KernelOp → Bool
  | .initializeOp _ => true
  | _ => false

/-! ## Helper lemmas about the cascade -/

/-- The cascade is total: for any fuel and state it returns either a result
or the depth-exceeded error — no other error arises inside the cascade. -/
theorem cascade_ok_or_depth (rules : List Rule) :
    ∀ (fuel : Nat) (s : State),
      (∃ q, cascade rules fuel s = .ok q) ∨
        cascade rules fuel s = .error .CascadeDepthExceeded
  | 0, _ => .inr rfl
  | fuel + 1, s => by
    unfold cascade
    by_cases hp : (stepOnce rules s).2 = []
    · exact .inl ⟨(s, []), by simp [hp]⟩
    · rcases cascade_ok_or_depth rules fuel (stepOnce rules s).1 with ⟨q, hq⟩ | hq
      · exact .inl ⟨(q.1, (stepOnce rules s).2 ++ q.2), by simp [hp, hq]⟩
      · exact .inr (by simp [hp, hq])

/-- A successful cascade ends in a state on which one more evaluation pass
produces no effects: a true fixed point. -/
theorem cascade_ok_fixed (rules : List Rule) :
    ∀ (fuel : Nat) (s : State) (q : State × List Effect),
      cascade rules fuel s = .ok q → (stepOnce rules q.1).2 = []
  | 0, s, q => by
    intro h
    exact absurd h (by simp [cascade])
  | fuel + 1, s, q => by
    intro h
    unfold cascade at h
    by_cases hp : (stepOnce rules s).2 = []
    · simp [hp] at h
      rw [← h]
      exact hp
    · simp only [hp, if_neg, if_false] at h
      cases hc : cascade rules fuel (stepOnce rules s).1 with
      | ok q2 =>
        have hq2 := cascade_ok_fixed rules fuel (stepOnce rules s).1 q2 hc
        simp [hp, hc] at h
        rw [← h]
        exact hq2
      | error e => simp [hp, hc] at h

/-- The effect counter of `applyEffectsN` equals the length of the effect
record list built by `applyEffects`, over the same final state. -/
theorem applyEffectsN_eq (rid : Nat) :
    ∀ (l : List (String × Int)) (s : State),
      applyEffectsN rid l s = ((applyEffects rid l s).1, (applyEffects rid l s).2.length)
  | [], _ => rfl
  | (a, v) :: rest, s => by
    unfold applyEffectsN applyEffects
    by_cases h : lookupAttr s a = some v <;>
      simp [h, applyEffectsN_eq rid rest]

/-- The effect counter of `stepOnceN` equals the length of the effect list
built by `stepOnce`, over the same final state. -/
theorem stepOnceN_eq :
    ∀ (rs : List Rule) (s : State),
      stepOnceN rs s = ((stepOnce rs s).1, (stepOnce rs s).2.length)
  | [], _ => rfl
  | r :: rs, s => by
    unfold stepOnceN stepOnce applyRule
    rw [applyEffectsN_eq]
    rw [stepOnceN_eq rs]
    simp

/-- The cascade counter equals the length of the effect sequence the cascade
produces, and the two report the same success or failure. -/
theorem cascadeN_eq (rules : List Rule) :
    ∀ (fuel : Nat) (s : State),
      cascadeN rules fuel s =
        (cascade rules fuel s).map (fun q => (q.1, q.2.length))
  | 0, _ => rfl
  | fuel + 1, s => by
    unfold cascadeN cascade
    rw [stepOnceN_eq]
    by_cases hp : (stepOnce rules s).2 = []
    · simp [hp, Except.map]
    · have hl : (stepOnce rules s).2.length ≠ 0 := by
        simpa using hp
      rw [cascadeN_eq rules fuel]
      cases hc : cascade rules fuel (stepOnce rules s).1 <;>
        simp [hp, hl, hc, Except.map]

/-- `withIndicesFrom` preserves length. -/
theorem withIndicesFrom_length :
    ∀ (i : Nat) (es : List Effect), (withIndicesFrom i es).length = es.length
  | _, [] => rfl
  | i, _ :: rest => by
    unfold withIndicesFrom
    simp [withIndicesFrom_length (i + 1) rest]

/-- The `k`-th consequence produced by `withIndicesFrom i` carries order
index `i + k`. -/
theorem withIndicesFrom_get_order :
    ∀ (i : Nat) (es : List Effect) (k : Nat) (hk : k < (withIndicesFrom i es).length),
      ((withIndicesFrom i es).get ⟨k, hk⟩).order = i + k
  | i, e :: rest, 0, _ => by simp [withIndicesFrom]
  | i, e :: rest, k + 1, hk => by
    have hk1 : k < (withIndicesFrom (i + 1) rest).length := by
      simpa [withIndicesFrom] using hk
    have := withIndicesFrom_get_order (i + 1) rest k hk1
    simpa [withIndicesFrom, Nat.add_assoc, Nat.add_comm 1 k] using this

/-- The `k`-th consequence produced by `withIndicesFrom i` carries the same
rule, attribute and value as the `k`-th effect. -/
theorem withIndicesFrom_get_fields :
    ∀ (i : Nat) (es : List Effect) (k : Nat) (hk : k < (withIndicesFrom i es).length)
      (hk2 : k < es.length),
      ((withIndicesFrom i es).get ⟨k, hk⟩).rule = (es.get ⟨k, hk2⟩).rule ∧
      ((withIndicesFrom i es).get ⟨k, hk⟩).attr = (es.get ⟨k, hk2⟩).attr ∧
      ((withIndicesFrom i es).get ⟨k, hk⟩).value = (es.get ⟨k, hk2⟩).value
  | i, e :: rest, 0, _, _ => by simp [withIndicesFrom]
  | i, e :: rest, k + 1, hk, hk2 => by
    have hk1 : k < (withIndicesFrom (i + 1) rest).length := by
      simpa [withIndicesFrom] using hk
    have hk3 : k < rest.length := by simpa using hk2
    have := withIndicesFrom_get_fields (i + 1) rest k hk1 hk3
    simpa [withIndicesFrom] using this

/-- Inversion of a successful `initCore` run: the timestamp was set, the
seed was recognized, the cascade reached a fixed point `q`, and the result
pairs the final state with the indexed effect sequence. -/
theorem initCore_ok_elim (R : RuleSet) (ts : Option Int) (st : State) (seed : Int)
    (q0 : State × List Consequence) (h : initCore R ts st seed = .ok q0) :
    ∃ t q, ts = some t ∧ R.seedOk seed = true ∧
      cascade R.rules cascadeDepthLimit (applyPatch st (R.seedInit seed t)) = .ok q ∧
      q0 = (q.1, withIndices q.2) := by
  unfold initCore at h
  cases ts with
  | none => simp at h
  | some t =>
    by_cases hse : R.seedOk seed = true
    · simp only [hse, if_true] at h
      cases hca : cascade R.rules cascadeDepthLimit (applyPatch st (R.seedInit seed t)) with
      | ok q =>
        rw [hca] at h
        simp only [Except.ok.injEq] at h
        exact ⟨t, q, rfl, hse, hca, h.symm⟩
      | error e =>
        rw [hca] at h
        simp at h
    · simp [hse] at h

/-- Inversion of a successful `initialize` call: the timestamp was set, the
seed was recognized, the cascade reached a fixed point `q`, the node keeps
its identity and timestamp with state `q.1`, and the returned consequences
are the cascade's effects with order indices attached. -/
theorem initializeNode_ok_elim (R : RuleSet) (n : Node) (seed : Int)
    (n1 : Node) (cs : List Consequence)
    (h : initializeNode R n seed = (n1, .ok cs)) :
    ∃ t q, n.timestamp = some t ∧ R.seedOk seed = true ∧
      cascade R.rules cascadeDepthLimit (applyPatch n.state (R.seedInit seed t)) = .ok q ∧
      n1 = { n with state := q.1 } ∧ cs = withIndices q.2 := by
  unfold initializeNode at h
  cases hc : initCore R n.timestamp n.state seed with
  | ok q0 =>
    rw [hc] at h
    obtain ⟨t, q, hts, hse, hca, hq0⟩ := initCore_ok_elim R n.timestamp n.state seed q0 hc
    subst hq0
    simp only [Prod.mk.injEq, Except.ok.injEq] at h
    exact ⟨t, q, hts, hse, hca, h.1.symm, h.2.symm⟩
  | error e =>
    rw [hc] at h
    simp at h

/-! ## Claim theorems -/

/-- C1: for every two nodes with equal state and equal timestamp, and the
same seed, `initialize` returns the same consequence sequence in the same
order — the outcome is a deterministic function of node state, timestamp and
seed alone. -/
theorem initialize_deterministic (R : RuleSet) (n1 n2 : Node) (seed : Int)
    (hs : n1.state = n2.state) (ht : n1.timestamp = n2.timestamp) :
    (initializeNode R n1 seed).2 = (initializeNode R n2 seed).2 := by
  unfold initializeNode
  rw [hs, ht]
  cases initCore R n2.timestamp n2.state seed <;> rfl

/-- Witness for C1: two fresh nodes with distinct identities but equal state
and timestamp receive identical consequence sequences. -/
theorem initialize_deterministic_witness :
    (initializeNode exampleRuleSet (nodeTs0 0) 1).2 =
      (initializeNode exampleRuleSet (nodeTs0 5) 1).2 :=
  initialize_deterministic exampleRuleSet (nodeTs0 0) (nodeTs0 5) 1 rfl rfl

/-- C2: for every rule set (cyclic rule graphs included), every node with a
set timestamp and every recognized seed, `initialize` terminates — it
returns a finite consequence sequence or fails with `CascadeDepthExceeded`;
no other outcome of the cascade exists. -/
theorem initialize_terminates (R : RuleSet) (n : Node) (seed : Int) (t : Int)
    (ht : n.timestamp = some t) (hs : R.seedOk seed = true) :
    (∃ cs, (initializeNode R n seed).2 = .ok cs) ∨
      (initializeNode R n seed).2 = .error .CascadeDepthExceeded := by
  unfold initializeNode initCore
  rw [ht]
  simp only [hs, if_true]
  rcases cascade_ok_or_depth R.rules cascadeDepthLimit
      (applyPatch n.state (R.seedInit seed t)) with ⟨q, hq⟩ | hq
  · exact .inl ⟨withIndices q.2, by simp [hq]⟩
  · exact .inr (by simp [hq])

/-- Witness for C2: under the cyclic rule set, `initialize` on a timestamped
node still terminates (concretely with `CascadeDepthExceeded`). -/
theorem initialize_terminates_witness :
    (∃ cs, (initializeNode cyclicRuleSet (nodeTs0 0) 1).2 = .ok cs) ∨
      (initializeNode cyclicRuleSet (nodeTs0 0) 1).2 =
        .error .CascadeDepthExceeded :=
  initialize_terminates cyclicRuleSet (nodeTs0 0) 1 0 rfl rfl

/-- C3: `initialize` on a node whose timestamp was never assigned fails with
`UninitializedTimestamp`, for any seed — it does not proceed as if the
timestamp were 0. -/
theorem initialize_unset_timestamp_fails (R : RuleSet) (n : Node) (seed : Int)
    (h : n.timestamp = none) :
    (initializeNode R n seed).2 = .error .UninitializedTimestamp := by
  simp [initializeNode, initCore, h]

/-- Witness for C3: a freshly created node (timestamp unset) is rejected. -/
theorem initialize_unset_timestamp_fails_witness :
    (initializeNode exampleRuleSet (create_node 0) 1).2 =
      .error .UninitializedTimestamp :=
  initialize_unset_timestamp_fails exampleRuleSet (create_node 0) 1 rfl

/-- C4: if `initialize` fails with any error, the node after the call equals
the node before it — in particular every attribute of its state is
unchanged; no consequence is partially applied. -/
theorem initialize_atomic_on_failure (R : RuleSet) (n : Node) (seed : Int)
    (e : KernelError) (h : (initializeNode R n seed).2 = .error e) :
    (initializeNode R n seed).1 = n ∧
      ∀ a, lookupAttr (initializeNode R n seed).1.state a = lookupAttr n.state a := by
  have h1 : (initializeNode R n seed).1 = n := by
    unfold initializeNode at h ⊢
    cases hc : initCore R n.timestamp n.state seed <;> simp [hc] at h ⊢
  exact ⟨h1, fun a => by rw [h1]⟩

/-- Witness for C4: a failing call (unset timestamp) leaves the node
untouched. -/
theorem initialize_atomic_on_failure_witness :
    (initializeNode exampleRuleSet (create_node 0) 1).1 = create_node 0 :=
  (initialize_atomic_on_failure exampleRuleSet (create_node 0) 1
    .UninitializedTimestamp rfl).1

/-- C5: every successful `initialize` call lists consequences in exactly
production order — the `k`-th returned consequence carries order index `k` —
and on the documented example (fresh node, timestamp 0, seed 1, rule R1
directly triggering R2 and R3) the result is always the fixed sequence
[R1-effect, R2-effect, R3-effect]; as a pure function of its inputs the
order is identical on every run. -/
theorem initialize_ordering_stable :
    (∀ (R : RuleSet) (n : Node) (seed : Int) (n1 : Node) (cs : List Consequence),
        initializeNode R n seed = (n1, .ok cs) →
        ∀ (k : Nat) (hk : k < cs.length), (cs.get ⟨k, hk⟩).order = k) ∧
    initializeNode exampleRuleSet (nodeTs0 0) 1 =
      ({ id := 0, timestamp := some 0, state := exampleFinalState },
        .ok exampleConsequences) := by
  constructor
  · intro R n seed n1 cs h k hk
    obtain ⟨t, q, -, -, -, -, hcs⟩ := initializeNode_ok_elim R n seed n1 cs h
    subst hcs
    have := withIndicesFrom_get_order 0 q.2 k (by simpa [withIndices] using hk)
    simpa [withIndices] using this
  · rfl

/-- Witness for C5: on the documented example the second returned
consequence (the R2 effect) indeed carries order index 1. -/
theorem initialize_ordering_stable_witness :
    (exampleConsequences.get ⟨1, by decide⟩).order = 1 :=
  initialize_ordering_stable.1 exampleRuleSet (nodeTs0 0) 1
    { id := 0, timestamp := some 0, state := exampleFinalState }
    exampleConsequences rfl 1 (by decide)

/-- C6: the sequence returned by a successful `initialize` call holds no two
consequences with the same (rule, affected attribute, order index) triple,
and its length equals the number of discrete effects actually applied to
node state during the call. -/
theorem initialize_no_duplicate_and_length (R : RuleSet) (n : Node) (seed : Int)
    (n1 : Node) (cs : List Consequence)
    (h : initializeNode R n seed = (n1, .ok cs)) :
    (∀ (i j : Nat) (hi : i < cs.length) (hj : j < cs.length), i ≠ j →
        ¬((cs.get ⟨i, hi⟩).rule = (cs.get ⟨j, hj⟩).rule ∧
          (cs.get ⟨i, hi⟩).attr = (cs.get ⟨j, hj⟩).attr ∧
          (cs.get ⟨i, hi⟩).order = (cs.get ⟨j, hj⟩).order)) ∧
    cs.length = appliedEffectCount R n seed := by
  obtain ⟨t, q, hts, hse, hca, hn1, hcs⟩ := initializeNode_ok_elim R n seed n1 cs h
  constructor
  · intro i j hi hj hij hdup
    apply hij
    have hoi : (cs.get ⟨i, hi⟩).order = i := by
      subst hcs
      have := withIndicesFrom_get_order 0 q.2 i (by simpa [withIndices] using hi)
      simpa [withIndices] using this
    have hoj : (cs.get ⟨j, hj⟩).order = j := by
      subst hcs
      have := withIndicesFrom_get_order 0 q.2 j (by simpa [withIndices] using hj)
      simpa [withIndices] using this
    exact hoi.symm.trans (hdup.2.2.trans hoj)
  · subst hcs
    unfold appliedEffectCount
    rw [hts]
    simp only [hse, if_true]
    rw [cascadeN_eq, hca]
    simp [withIndices, withIndicesFrom_length, Except.map]

/-- Witness for C6: on the documented example the returned sequence has
length 3, the number of effects applied to state. -/
theorem initialize_no_duplicate_and_length_witness :
    exampleConsequences.length = appliedEffectCount exampleRuleSet (nodeTs0 0) 1 :=
  (initialize_no_duplicate_and_length exampleRuleSet (nodeTs0 0) 1
    { id := 0, timestamp := some 0, state := exampleFinalState }
    exampleConsequences rfl).2

/-- C7: after a successful `initialize` call, re-running one full rule
evaluation pass on the resulting node state with the same rule set produces
no effect at all — the post-initialize state is a fixed point of the
cascade, so no consequence outside the returned sequence can be derived. -/
theorem initialize_reaches_fixed_point (R : RuleSet) (n : Node) (seed : Int)
    (n1 : Node) (cs : List Consequence)
    (h : initializeNode R n seed = (n1, .ok cs)) :
    (stepOnce R.rules n1.state).2 = [] := by
  obtain ⟨t, q, hts, hse, hca, hn1, hcs⟩ := initializeNode_ok_elim R n seed n1 cs h
  have hfix := cascade_ok_fixed R.rules cascadeDepthLimit _ q hca
  rw [hn1]
  exact hfix

/-- Witness for C7: re-deriving on the example's final state yields no new
effect. -/
theorem initialize_reaches_fixed_point_witness :
    (stepOnce exampleRuleSet.rules exampleFinalState).2 = [] :=
  initialize_reaches_fixed_point exampleRuleSet (nodeTs0 0) 1
    { id := 0, timestamp := some 0, state := exampleFinalState }
    exampleConsequences rfl

/-- C8: if all three kernel calls of the host succeed, the host run ends
normally (exit status 0) after producing the printed output; if any of the
calls raises an error, that very error propagates unhandled as the run's
outcome and the host exits with a non-zero status — no recovery is
performed anywhere. -/
theorem host_error_propagation {Nd α : Type} (K : Kernel Nd α) :
    (∀ (n n1 n2 : Nd) (cs : List α),
        K.createNode = .ok n → K.setTimestamp n 0 = .ok n1 →
        K.initializeCall n1 1 = .ok (n2, cs) →
        hostMain K = .ok (outputLines cs) ∧ hostExitCode K = 0) ∧
    (∀ e, K.createNode = .error e →
        hostMain K = .error e ∧ hostExitCode K ≠ 0) ∧
    (∀ n e, K.createNode = .ok n → K.setTimestamp n 0 = .error e →
        hostMain K = .error e ∧ hostExitCode K ≠ 0) ∧
    (∀ n n1 e, K.createNode = .ok n → K.setTimestamp n 0 = .ok n1 →
        K.initializeCall n1 1 = .error e →
        hostMain K = .error e ∧ hostExitCode K ≠ 0) := by
  refine ⟨?_, ?_, ?_, ?_⟩ <;> intros <;>
    simp_all [hostMain, hostExitCode, hostMainT]

/-- Witness for C8: the spec-modelled kernel yields a normal run with exit
status 0; a kernel whose allocation fails makes the host exit abnormally
with that error. -/
theorem host_error_propagation_witness :
    (hostMain (specKernel exampleRuleSet 0) = .ok (outputLines exampleConsequences) ∧
      hostExitCode (specKernel exampleRuleSet 0) = 0) ∧
    (hostMain failingKernel = .error .ResourceExhausted ∧
      hostExitCode failingKernel ≠ 0) :=
  ⟨(host_error_propagation (specKernel exampleRuleSet 0)).1 (create_node 0) (nodeTs0 0)
      { id := 0, timestamp := some 0, state := exampleFinalState }
      exampleConsequences rfl rfl rfl,
    (host_error_propagation failingKernel).2.1 .ResourceExhausted rfl⟩

/-- C9: whenever the host run succeeds, its standard output is exactly one
count line holding the returned list's element count, followed by each
returned consequence exactly once, in list order, one per line — the count
always precedes the first consequence. -/
theorem host_output_format {Nd α : Type} (K : Kernel Nd α)
    (out : List (OutputLine α)) (h : hostMain K = .ok out) :
    ∃ (n n1 n2 : Nd) (cs : List α),
      K.createNode = .ok n ∧ K.setTimestamp n 0 = .ok n1 ∧
      K.initializeCall n1 1 = .ok (n2, cs) ∧
      out = OutputLine.count cs.length :: cs.map OutputLine.consequence := by
  unfold hostMain hostMainT at h
  cases hc : K.createNode with
  | error e => simp [hc] at h
  | ok n =>
    simp only [hc] at h
    cases hs : K.setTimestamp n 0 with
    | error e => simp [hs] at h
    | ok n1 =>
      simp only [hs] at h
      cases hi : K.initializeCall n1 1 with
      | error e => simp [hi] at h
      | ok q =>
        simp only [hi, Except.ok.injEq] at h
        refine ⟨n, n1, q.1, q.2, hc.symm ▸ rfl, hs, by rw [hi], ?_⟩
        rw [← h]
        rfl

/-- Witness for C9: the successful run under the spec-modelled kernel has
the documented output shape. -/
theorem host_output_format_witness :
    ∃ (n n1 n2 : Node) (cs : List Consequence),
      (specKernel exampleRuleSet 0).createNode = .ok n ∧
      (specKernel exampleRuleSet 0).setTimestamp n 0 = .ok n1 ∧
      (specKernel exampleRuleSet 0).initializeCall n1 1 = .ok (n2, cs) ∧
      outputLines exampleConsequences =
        OutputLine.count cs.length :: cs.map OutputLine.consequence :=
  host_output_format (specKernel exampleRuleSet 0)
    (outputLines exampleConsequences) rfl

/-- C10: in every host run the kernel-call trace is one of the prefixes of
`[create_node, set_timestamp 0, initialize 1]` (ending at the first failing
call), so each operation is invoked at most once and in that fixed order;
a run that succeeds performs exactly those three calls; `initialize` is
never invoked a second time and `get_state` / `mutate_state` are never
invoked at all. -/
theorem host_call_discipline {Nd α : Type} (K : Kernel Nd α) :
    (hostTrace K = [.createNodeOp] ∨
      hostTrace K = [.createNodeOp, .setTimestampOp 0] ∨
      hostTrace K = [.createNodeOp, .setTimestampOp 0, .initializeOp 1]) ∧
    List.count KernelOp.createNodeOp (hostTrace K) = 1 ∧
    List.countP isInitOp (hostTrace K) ≤ 1 ∧
    KernelOp.getStateOp ∉ hostTrace K ∧
    KernelOp.mutateStateOp ∉ hostTrace K ∧
    (∀ out, hostMain K = .ok out →
      hostTrace K = [.createNodeOp, .setTimestampOp 0, .initializeOp 1]) := by
  cases hc : K.createNode with
  | error e =>
    have ht : hostTrace K = [KernelOp.createNodeOp] := by
      unfold hostTrace hostMainT
      simp [hc]
    have hm : hostMain K = .error e := by
      unfold hostMain hostMainT
      simp [hc]
    rw [ht]
    refine ⟨.inl rfl, by decide, by decide, by decide, by decide, ?_⟩
    intro out hout
    rw [hm] at hout
    exact absurd hout (by simp)
  | ok n =>
    cases hs : K.setTimestamp n 0 with
    | error e =>
      have ht : hostTrace K = [KernelOp.createNodeOp, KernelOp.setTimestampOp 0] := by
        unfold hostTrace hostMainT
        simp [hc, hs]
      have hm : hostMain K = .error e := by
        unfold hostMain hostMainT
        simp [hc, hs]
      rw [ht]
      refine ⟨.inr (.inl rfl), by decide, by decide, by decide, by decide, ?_⟩
      intro out hout
      rw [hm] at hout
      exact absurd hout (by simp)
    | ok n1 =>
      have ht : hostTrace K =
          [KernelOp.createNodeOp, KernelOp.setTimestampOp 0, KernelOp.initializeOp 1] := by
        unfold hostTrace hostMainT
        cases hi : K.initializeCall n1 1 <;> simp [hc, hs, hi]
      rw [ht]
      exact ⟨.inr (.inr rfl), by decide, by decide, by decide, by decide,
        fun out _ => rfl⟩

/-- Witness for C10: a successful run under the spec-modelled kernel
performs exactly the three canonical calls in order. -/
theorem host_call_discipline_witness :
    hostTrace (specKernel exampleRuleSet 0) =
      [.createNodeOp, .setTimestampOp 0, .initializeOp 1] :=
  (host_call_discipline (specKernel exampleRuleSet 0)).2.2.2.2.2
    (outputLines exampleConsequences) rfl

end GradysSim
